import Mathlib

/-!
Verification of the data-transformation core of `st_app.py`: the header
resolution, row-to-feature-vector transformation, probability formatting,
write guard and write-range arithmetic of the spreadsheet batch job.

The script's numeric cells are parsed with Python's `float`; every value the
claims exercise is an ordinary decimal literal, which `float` represents and
formats exactly at the 4-digit precision used here, so values are embedded as
exact scaled decimals `num / 10 ^ exp` (`DecNum` below) with a rational view
`DecNum.toRat`.  The pre-trained classifier and the fitted one-hot encoder are
external artifacts (loaded from a pickle); they are embedded as parameters
whose interface follows the fields the script reads from them
(`feature_names_in_`, `predict_proba`, `categories_`, `handle_unknown`,
`drop`).
-/

/-- Exact scaled decimal `num / 10 ^ exp`: the value of a parsed numeric cell. -/
structure DecNum where
  num : Int
  exp : Nat
deriving DecidableEq, Repr

/-- Rational value of a scaled decimal. -/
def DecNum.toRat (d : DecNum) : ℚ := d.num / 10 ^ d.exp

/-- Negation (for a leading minus sign). -/
def DecNum.neg (d : DecNum) : DecNum := ⟨-d.num, d.exp⟩

/-- Scale by `10 ^ z` (for an exponent suffix), exactly. -/
def DecNum.scale (d : DecNum) (z : Int) : DecNum :=
  if 0 ≤ z then ⟨d.num * 10 ^ z.toNat, d.exp⟩ else ⟨d.num, d.exp + (-z).toNat⟩

/-- `COLUMN_MAPPING` of `st_app.py`: sheet column name to model feature name. -/
def COLUMN_MAPPING : List (String × String) :=
  [("Valor_Parcela", "ValorQuitacao"),
   ("Quant_Boletos_Pagos", "Quant_Pagamentos_Via_Boleto"),
   ("Idade", "Quant_Ocorrencia")]

/-- `model_features_from_sheet` of `process_sheet_data`: the five canonical
fields read directly from the sheet. -/
def model_features_from_sheet : List String :=
  ["ValorQuitacao", "Atraso", "Quant_Pagamentos_Via_Boleto", "Quant_Ocorrencia", "UF"]

/-- The four canonical fields that are parsed numerically. -/
def numeric_field_names : List String :=
  ["ValorQuitacao", "Atraso", "Quant_Pagamentos_Via_Boleto", "Quant_Ocorrencia"]

/-- The sheet-side column name searched for a canonical model feature name:
the alias-map key when the feature is a `COLUMN_MAPPING` value, the name
itself otherwise, and `"UF"` for the region field (lines 133-148). -/
def sheet_col_name_to_find (f : String) : String :=
  let base :=
    match COLUMN_MAPPING.find? (fun p => p.2 = f) with
    | some p => p.1
    | none => f
  if f = "UF" then "UF" else base

/-- Python's `list.index` as used on the header (line 152): index of the first
occurrence, `none` when absent (the `ValueError` case). -/
def headerIndex (name : String) : List String → Option Nat
  | [] => none
  | c :: t => if c = name then some 0 else (headerIndex name t).map (· + 1)

/-- The header-resolution loop of `process_sheet_data` (lines 132-162) over a
given list of canonical fields: each field is located in the header, any
missing field makes the whole resolution fail. -/
def resolveFields (header : List String) : List String → Option (List (String × Nat))
  | [] => some []
  | f :: fs =>
    match headerIndex (sheet_col_name_to_find f) header with
    | none => none
    | some i =>
      match resolveFields header fs with
      | none => none
      | some rest => some ((f, i) :: rest)

/-- `idx_map_original`: resolution of the five canonical fields. -/
def resolveHeader (header : List String) : Option (List (String × Nat)) :=
  resolveFields header model_features_from_sheet

/-- Reading `idx_map_original[f]` from the resolved map. -/
def lookupIdx (m : List (String × Nat)) (f : String) : Nat :=
  match m.find? (fun p => p.1 = f) with
  | some p => p.2
  | none => 0

/-- The row padding loop (lines 190-191): append empty cells until the row is
as long as the header (a longer row is left unchanged). -/
def padRow (headerLen : Nat) (row : List String) : List String :=
  row ++ List.replicate (headerLen - row.length) ""

/-- Python's `str.strip()` on a cell (line 203): remove leading and trailing
whitespace. -/
def pyStrip (s : String) : String :=
  ⟨((s.data.dropWhile Char.isWhitespace).reverse.dropWhile Char.isWhitespace).reverse⟩

/-- `value.replace(',', '.')` (lines 218-221): every comma becomes a period. -/
def replaceCommaDot (s : String) : String :=
  ⟨s.data.map (fun c => if c = ',' then '.' else c)⟩

/-- The stripped cell of the padded row at a canonical field's resolved index
(line 203). -/
def fieldValue (m : List (String × Nat)) (rp : List String) (f : String) : String :=
  pyStrip (rp.getD (lookupIdx m f) "")

/-- Numeric value of a digit run. -/
def digitsVal (cs : List Char) : Nat :=
  cs.foldl (fun a c => 10 * a + (c.toNat - 48)) 0

/-- Mantissa of a decimal literal: digits with an optional point,
at least one digit overall. -/
def parseMantissa? (cs : List Char) : Option DecNum :=
  let ip := cs.takeWhile Char.isDigit
  match cs.dropWhile Char.isDigit with
  | [] => if ip.isEmpty then none else some ⟨(digitsVal ip : Int), 0⟩
  | '.' :: fp =>
    if fp.all Char.isDigit ∧ ¬(ip.isEmpty ∧ fp.isEmpty) then
      some ⟨(digitsVal ip * 10 ^ fp.length + digitsVal fp : Int), fp.length⟩
    else none
  | _ => none

/-- Exponent part of a decimal literal (after `e`/`E`). -/
def parseExp? (cs : List Char) : Option Int :=
  match cs with
  | '+' :: t => if ¬t.isEmpty ∧ t.all Char.isDigit then some (digitsVal t : Int) else none
  | '-' :: t => if ¬t.isEmpty ∧ t.all Char.isDigit then some (-(digitsVal t : Int)) else none
  | t => if ¬t.isEmpty ∧ t.all Char.isDigit then some (digitsVal t : Int) else none

/-- Python's `float()` on an ordinary decimal literal (optional sign, digits,
optional fractional part, optional exponent), returning the exact value;
`none` is the `ValueError` case.  The special forms (`inf`, `nan`,
underscores, hex) do not occur in the spreadsheet cells at issue. -/
def parseFloat? (s : String) : Option DecNum :=
  let cs := s.data
  let signed : Bool × List Char :=
    match cs with
    | '+' :: t => (false, t)
    | '-' :: t => (true, t)
    | _ => (false, cs)
  let body := signed.2
  let mant := body.takeWhile (fun c => c ≠ 'e' ∧ c ≠ 'E')
  let res :=
    match body.dropWhile (fun c => c ≠ 'e' ∧ c ≠ 'E') with
    | [] => parseMantissa? mant
    | _ :: expChars =>
      match parseMantissa? mant, parseExp? expChars with
      | some d, some z => some (d.scale z)
      | _, _ => none
  if signed.1 then res.map DecNum.neg else res

/-- The fitted one-hot encoder, through the fields the script reads:
`categories_[0]`, `handle_unknown == 'error'`, `drop == 'first'`.  It is an
external artifact of the run (spec, External Interfaces). -/
structure Encoder where
  categories : List String
  handleUnknownError : Bool
  dropFirst : Bool

/-- `encoder.transform` on one region code, as the script relies on it
(lines 230-247 together with the explicit unknown-category check): an
indicator vector over the fitted categories, minus the first category when
the encoder drops a baseline; with the strict unknown policy an unseen code
is an error, which the script turns into a row failure. -/
def encTransform (enc : Encoder) (uf : String) : Option (List DecNum) :=
  if enc.handleUnknownError ∧ uf ∉ enc.categories then none
  else
    some ((if enc.dropFirst then enc.categories.drop 1 else enc.categories).map
      (fun c => if c = uf then (⟨1, 0⟩ : DecNum) else ⟨0, 0⟩))

/-- The pre-trained classifier, through the fields the script reads:
`feature_names_in_` and `predict_proba` (per-class probabilities for the
single assembled sample). -/
structure Model where
  feature_names_in : List String
  predictProba : List DecNum → List DecNum

/-- `s.startswith('UF_')` (line 269). -/
def startsWithUF (s : String) : Bool :=
  s.data.take 3 = ['U', 'F', '_']

/-- `feature_name[3:]` (line 273): drop the `UF_` tag. -/
def dropUFTag (s : String) : String := ⟨s.data.drop 3⟩

/-- One entry of the final feature vector (lines 266-314): a numeric
canonical field passes through; a `UF_`-prefixed name is resolved against the
(baseline-dropped, when `drop == 'first'`) fitted category list and read from
the encoded vector, defaulting to 0 when the suffix is not found; any other
name yields 0. -/
def featureValue (enc : Encoder) (v1 v2 v3 v4 : DecNum) (ufEncoded : List DecNum)
    (fname : String) : DecNum :=
  if fname = "ValorQuitacao" then v1
  else if fname = "Atraso" then v2
  else if fname = "Quant_Pagamentos_Via_Boleto" then v3
  else if fname = "Quant_Ocorrencia" then v4
  else if startsWithUF fname then
    let cat := dropUFTag fname
    if enc.dropFirst ∧ 0 < enc.categories.length then
      match headerIndex cat (enc.categories.drop 1) with
      | some j => ufEncoded.getD j ⟨0, 0⟩
      | none => ⟨0, 0⟩
    else
      match headerIndex cat enc.categories with
      | some j => ufEncoded.getD j ⟨0, 0⟩
      | none => ⟨0, 0⟩
  else ⟨0, 0⟩

/-- Round `a / b` (with `b > 0`) to the nearest integer, ties to even: the
rounding of `float` formatting on exactly representable values. -/
def roundHalfEvenDiv (a : Int) (b : Nat) : Int :=
  let q := Int.ediv a b
  let r := Int.emod a b
  if 2 * r < (b : Int) then q
  else if (b : Int) < 2 * r then q + 1
  else if Int.emod q 2 = 0 then q else q + 1

/-- Left-pad a numeral below 10000 to four digits. -/
def pad4 (m : Nat) : String :=
  if m < 10 then "000" ++ toString m
  else if m < 100 then "00" ++ toString m
  else if m < 1000 then "0" ++ toString m
  else toString m

/-- `f"{prob:.4f}".replace('.', ',')` (line 327) on an exact value: four
fractional digits, comma as decimal separator. -/
def formatComma4 (d : DecNum) : String :=
  let n := roundHalfEvenDiv (d.num * 10 ^ 4) (10 ^ d.exp)
  let s := if n < 0 then "-" else ""
  s ++ toString (n.natAbs / 10000) ++ "," ++ pad4 (n.natAbs % 10000)

/-- The empty-essential-cell check of the row loop (lines 201-208): some of
the five stripped cells is empty. -/
def anyFieldEmpty (m : List (String × Nat)) (rp : List String) : Prop :=
  fieldValue m rp "ValorQuitacao" = "" ∨ fieldValue m rp "Atraso" = ""
    ∨ fieldValue m rp "Quant_Pagamentos_Via_Boleto" = ""
    ∨ fieldValue m rp "Quant_Ocorrencia" = "" ∨ fieldValue m rp "UF" = ""

instance (m : List (String × Nat)) (rp : List String) : Decidable (anyFieldEmpty m rp) := by
  unfold anyFieldEmpty
  exact inferInstance

/-- The per-row probability computation (lines 196-332): `none` is the
`row_error` flag.  In order: any of the five stripped cells empty; any of the
four numeric parses failing; the region-code encoding failing; the
positive-class column missing from `predict_proba`'s output (the catch-all
`except`). -/
def rowProbability? (model : Model) (enc : Encoder) (m : List (String × Nat))
    (rp : List String) : Option DecNum :=
  if anyFieldEmpty m rp then
    none
  else
    (parseFloat? (replaceCommaDot (fieldValue m rp "ValorQuitacao"))).bind fun v1 =>
    (parseFloat? (replaceCommaDot (fieldValue m rp "Atraso"))).bind fun v2 =>
    (parseFloat? (replaceCommaDot (fieldValue m rp "Quant_Pagamentos_Via_Boleto"))).bind fun v3 =>
    (parseFloat? (replaceCommaDot (fieldValue m rp "Quant_Ocorrencia"))).bind fun v4 =>
    (encTransform enc (fieldValue m rp "UF")).bind fun ufEncoded =>
    (model.predictProba
      (model.feature_names_in.map (featureValue enc v1 v2 v3 v4 ufEncoded)))[1]?

/-- The probability string of one row: empty on any row-local failure,
otherwise the formatted positive-class probability (lines 193, 326-336). -/
def transformRow (model : Model) (enc : Encoder) (m : List (String × Nat))
    (rp : List String) : String :=
  match rowProbability? model enc m rp with
  | none => ""
  | some p => formatComma4 p

/-- `process_sheet_data` on the values read from the sheet (the read call and
UI aside): empty read gives `[]`; a lone header row comes back with
`'Probabilidade'` appended before any header resolution; otherwise the header
is resolved (`none` = the fatal missing-column return), `'Probabilidade'` is
appended to the header unless already present, and every data row is padded
and extended with its probability string. -/
def process_sheet_data (model : Model) (enc : Encoder)
    (values : List (List String)) : Option (List (List String)) :=
  match values with
  | [] => some []
  | header :: dataRows =>
    match dataRows with
    | [] => some [header ++ ["Probabilidade"]]
    | _ :: _ =>
      match resolveHeader header with
      | none => none
      | some m =>
        some ((if "Probabilidade" ∈ header then header else header ++ ["Probabilidade"]) ::
          dataRows.map (fun row =>
            padRow header.length row ++ [transformRow model enc m (padRow header.length row)]))

/-- Outcome of `update_sheet`'s size guard (lines 366-377): proceed to the
write call, return without writing, or raise `IndexError` (the
`updated_data[0][-1]` access on an empty first row). -/
inductive WriteDecision where
  | write
  | refuse
  | indexError
deriving DecidableEq, Repr

/-- The size guard of `update_sheet`: an empty table returns; a first row
shorter than `len(COLUMN_MAPPING) + 2 = 5` cells returns, unless the table is
one row whose last cell is `'Probabilidade'` and which has more than one
cell; evaluation order makes a single empty row raise `IndexError`. -/
def update_sheet_guard (t : List (List String)) : WriteDecision :=
  match t with
  | [] => .refuse
  | first :: rest =>
    if first.length < COLUMN_MAPPING.length + 2 then
      match rest with
      | [] =>
        match first.getLast? with
        | none => .indexError
        | some c => if c = "Probabilidade" ∧ 1 < first.length then .write else .refuse
      | _ :: _ => .refuse
    else .write

/-- The fuel-indexed column-letter loop of `update_sheet` (lines 396-401):
each pass takes `(temp - 1) % 26` as a letter, prepends it, and continues
with `(temp - 1) / 26`.  The counter strictly decreases, so fuel equal to the
starting value is never exhausted. -/
def columnLetterLoop : Nat → Nat → String → String
  | 0, _, acc => acc
  | _ + 1, 0, acc => acc
  | fuel + 1, m + 1, acc =>
    columnLetterLoop fuel (m / 26) (String.singleton (Char.ofNat (65 + m % 26)) ++ acc)

/-- Column count to spreadsheet column letters (lines 391-401); a count of 0
defaults to `"A"`. -/
def column_letter (n : Nat) : String :=
  if n = 0 then "A" else columnLetterLoop n n ""

/-- `RANGE_NAME` of `st_app.py`. -/
def RANGE_NAME : String := "Página1!A:G"

/-- `RANGE_NAME.split('!')[0] if '!' in RANGE_NAME else 'Página1'` (line 405). -/
def sheet_name_from_range : String :=
  if RANGE_NAME.data.contains '!' then ⟨RANGE_NAME.data.takeWhile (fun c => c ≠ '!')⟩
  else "Página1"

/-- The destination range computed by `update_sheet` (lines 387-408) from the
table to be written: `'{sheet}!A1:{last column letter}{row count}'`. -/
def update_range_string (t : List (List String)) : String :=
  sheet_name_from_range ++ "!A1:" ++ column_letter (t.headD []).length ++ toString t.length

/-- The module main flow (lines 451-459): the write call is reached only when
`process_sheet_data` returned a table and the size guard lets it through. -/
def main_writes (model : Model) (enc : Encoder) (values : List (List String)) : Bool :=
  match process_sheet_data model enc values with
  | none => false
  | some t => decide (update_sheet_guard t = WriteDecision.write)

/-- A concrete classifier for witnesses: the six features of the spec's
end-to-end scenario and a constant half-half class distribution. -/
def model0 : Model :=
  ⟨["ValorQuitacao", "Atraso", "Quant_Pagamentos_Via_Boleto", "Quant_Ocorrencia",
    "UF_CE", "UF_SP"],
   fun _ => [⟨5, 1⟩, ⟨5, 1⟩]⟩

/-- A concrete encoder for witnesses: fitted on `["AL","CE","SP"]`, strict
unknown policy, baseline drop. -/
def enc0 : Encoder := ⟨["AL", "CE", "SP"], true, true⟩

/-- The spec's end-to-end header. -/
def hdr1 : List String :=
  ["Cliente", "Valor_Parcela", "Atraso", "Quant_Boletos_Pagos", "Idade", "UF"]

/-- The resolved index map of `hdr1`. -/
def m1 : List (String × Nat) :=
  [("ValorQuitacao", 1), ("Atraso", 2), ("Quant_Pagamentos_Via_Boleto", 3),
   ("Quant_Ocorrencia", 4), ("UF", 5)]

/-- The spec's end-to-end data row. -/
def row1 : List String := ["João", "150,50", "10", "3", "2", "CE"]

/-- A resolvable header that already contains `'Probabilidade'`, in a
non-final position. -/
def hdrP : List String :=
  ["Probabilidade", "Valor_Parcela", "Atraso", "Quant_Boletos_Pagos", "Idade", "UF"]

/-- A well-formed data row one cell longer than `hdrP`. -/
def rowP : List String := ["x", "1", "2", "3", "4", "CE", "extra"]

/-! ### Helper lemmas -/

theorem headerIndex_spec (name : String) :
    ∀ (l : List String) (i : Nat), headerIndex name l = some i →
      l.get? i = some name ∧ ∀ j, j < i → l.get? j ≠ some name := by
  intro l
  induction l with
  | nil => intro i h; simp [headerIndex] at h
  | cons c t ih =>
    intro i h
    by_cases hc : c = name
    · simp only [headerIndex, if_pos hc, Option.some.injEq] at h
      subst h
      refine ⟨by simp [hc], ?_⟩
      intro j hj
      omega
    · simp only [headerIndex, if_neg hc, Option.map_eq_some'] at h
      obtain ⟨k, hk, hki⟩ := h
      subst hki
      obtain ⟨h1, h2⟩ := ih k hk
      refine ⟨by simpa using h1, ?_⟩
      intro j hj
      cases j with
      | zero => simp [hc]
      | succ j' =>
        rw [List.get?_cons_succ]
        exact h2 j' (by omega)

theorem headerIndex_none_of_not_mem (name : String) :
    ∀ l : List String, name ∉ l → headerIndex name l = none := by
  intro l
  induction l with
  | nil => intro _; rfl
  | cons c t ih =>
    intro h
    simp only [List.mem_cons] at h
    push_neg at h
    have hc : ¬c = name := fun e => h.1 e.symm
    simp [headerIndex, hc, ih h.2]

theorem resolveFields_mem (header : List String) :
    ∀ (fs : List String) (m : List (String × Nat)), resolveFields header fs = some m →
      ∀ f i, (f, i) ∈ m → headerIndex (sheet_col_name_to_find f) header = some i := by
  intro fs
  induction fs with
  | nil =>
    intro m h f i hm
    simp only [resolveFields, Option.some.injEq] at h
    subst h
    simp at hm
  | cons f0 fs ih =>
    intro m h f i hm
    simp only [resolveFields] at h
    cases h1 : headerIndex (sheet_col_name_to_find f0) header with
    | none => rw [h1] at h; exact absurd h (by simp)
    | some i0 =>
      rw [h1] at h
      cases h2 : resolveFields header fs with
      | none => rw [h2] at h; exact absurd h (by simp)
      | some rest =>
        rw [h2] at h
        simp only [Option.some.injEq] at h
        subst h
        rcases List.mem_cons.mp hm with he | he
        · injection he with he1 he2
          subst he1; subst he2
          exact h1
        · exact ih rest h2 f i he

theorem resolveFields_none (header : List String) :
    ∀ fs : List String,
      (∃ f ∈ fs, headerIndex (sheet_col_name_to_find f) header = none) →
      resolveFields header fs = none := by
  intro fs
  induction fs with
  | nil => rintro ⟨f, hf, _⟩; simp at hf
  | cons f0 fs ih =>
    rintro ⟨f, hf, hnone⟩
    rcases List.mem_cons.mp hf with rfl | hf'
    · simp [resolveFields, hnone]
    · cases h1 : headerIndex (sheet_col_name_to_find f0) header with
      | none => simp [resolveFields, h1]
      | some i0 => simp [resolveFields, h1, ih ⟨f, hf', hnone⟩]

theorem get?_map_of_lt {α β : Type} (g : α → β) (d : α) :
    ∀ (l : List α) (i : Nat), i < l.length → (l.map g).get? i = some (g (l.getD i d)) := by
  intro l
  induction l with
  | nil => intro i h; simp at h
  | cons a t ih =>
    intro i h
    cases i with
    | zero => simp
    | succ i' =>
      simp only [List.map_cons, List.get?_cons_succ, List.getD_cons_succ]
      exact ih i' (by simpa using h)

theorem padRow_length (headerLen : Nat) (row : List String) :
    (padRow headerLen row).length = max row.length headerLen := by
  simp only [padRow, List.length_append, List.length_replicate]
  omega

theorem rowProbability?_eq_none_of_empty (model : Model) (enc : Encoder)
    (m : List (String × Nat)) (rp : List String) (h : anyFieldEmpty m rp) :
    rowProbability? model enc m rp = none := by
  unfold rowProbability?
  rw [if_pos h]

theorem parseFloat?_empty : parseFloat? "" = none := rfl

theorem replaceCommaDot_empty : replaceCommaDot "" = "" := rfl

theorem anyFieldEmpty_of_mem (m : List (String × Nat)) (rp : List String) (f : String)
    (hf : f ∈ model_features_from_sheet) (he : fieldValue m rp f = "") :
    anyFieldEmpty m rp := by
  simp only [model_features_from_sheet, List.mem_cons] at hf
  rcases hf with rfl | rfl | rfl | rfl | rfl | hf
  · exact Or.inl he
  · exact Or.inr (Or.inl he)
  · exact Or.inr (Or.inr (Or.inl he))
  · exact Or.inr (Or.inr (Or.inr (Or.inl he)))
  · exact Or.inr (Or.inr (Or.inr (Or.inr he)))
  · simp at hf

theorem rowProbability?_eq_none_of_parse_fail (model : Model) (enc : Encoder)
    (m : List (String × Nat)) (rp : List String) (f : String)
    (hf : f ∈ numeric_field_names)
    (hp : parseFloat? (replaceCommaDot (fieldValue m rp f)) = none) :
    rowProbability? model enc m rp = none := by
  by_cases hC : anyFieldEmpty m rp
  · exact rowProbability?_eq_none_of_empty model enc m rp hC
  · unfold rowProbability?
    rw [if_neg hC]
    simp only [numeric_field_names, List.mem_cons] at hf
    rcases hf with rfl | rfl | rfl | rfl | hf
    · rw [hp]; rfl
    · cases h1 : parseFloat? (replaceCommaDot (fieldValue m rp "ValorQuitacao")) with
      | none => rfl
      | some v1 => rw [Option.some_bind, hp]; rfl
    · cases h1 : parseFloat? (replaceCommaDot (fieldValue m rp "ValorQuitacao")) with
      | none => rfl
      | some v1 =>
        rw [Option.some_bind]
        cases h2 : parseFloat? (replaceCommaDot (fieldValue m rp "Atraso")) with
        | none => rfl
        | some v2 => rw [Option.some_bind, hp]; rfl
    · cases h1 : parseFloat? (replaceCommaDot (fieldValue m rp "ValorQuitacao")) with
      | none => rfl
      | some v1 =>
        rw [Option.some_bind]
        cases h2 : parseFloat? (replaceCommaDot (fieldValue m rp "Atraso")) with
        | none => rfl
        | some v2 =>
          rw [Option.some_bind]
          cases h3 : parseFloat?
              (replaceCommaDot (fieldValue m rp "Quant_Pagamentos_Via_Boleto")) with
          | none => rfl
          | some v3 => rw [Option.some_bind, hp]; rfl
    · simp at hf

theorem rowProbability?_eq_none_of_enc_fail (model : Model) (enc : Encoder)
    (m : List (String × Nat)) (rp : List String)
    (he : encTransform enc (fieldValue m rp "UF") = none) :
    rowProbability? model enc m rp = none := by
  by_cases hC : anyFieldEmpty m rp
  · exact rowProbability?_eq_none_of_empty model enc m rp hC
  · unfold rowProbability?
    rw [if_neg hC]
    cases h1 : parseFloat? (replaceCommaDot (fieldValue m rp "ValorQuitacao")) with
    | none => rfl
    | some v1 =>
      rw [Option.some_bind]
      cases h2 : parseFloat? (replaceCommaDot (fieldValue m rp "Atraso")) with
      | none => rfl
      | some v2 =>
        rw [Option.some_bind]
        cases h3 : parseFloat?
            (replaceCommaDot (fieldValue m rp "Quant_Pagamentos_Via_Boleto")) with
        | none => rfl
        | some v3 =>
          rw [Option.some_bind]
          cases h4 : parseFloat? (replaceCommaDot (fieldValue m rp "Quant_Ocorrencia")) with
          | none => rfl
          | some v4 => rw [Option.some_bind, he]; rfl

theorem transformRow_eq_empty (model : Model) (enc : Encoder)
    (m : List (String × Nat)) (rp : List String)
    (h : rowProbability? model enc m rp = none) : transformRow model enc m rp = "" := by
  unfold transformRow
  rw [h]

theorem rowProbability?_eq_some (model : Model) (enc : Encoder)
    (m : List (String × Nat)) (rp : List String) (v1 v2 v3 v4 : DecNum)
    (ufEnc : List DecNum) (p : DecNum)
    (h1 : parseFloat? (replaceCommaDot (fieldValue m rp "ValorQuitacao")) = some v1)
    (h2 : parseFloat? (replaceCommaDot (fieldValue m rp "Atraso")) = some v2)
    (h3 : parseFloat? (replaceCommaDot (fieldValue m rp "Quant_Pagamentos_Via_Boleto")) = some v3)
    (h4 : parseFloat? (replaceCommaDot (fieldValue m rp "Quant_Ocorrencia")) = some v4)
    (h5 : fieldValue m rp "UF" ≠ "")
    (h6 : encTransform enc (fieldValue m rp "UF") = some ufEnc)
    (h7 : (model.predictProba (model.feature_names_in.map
        (featureValue enc v1 v2 v3 v4 ufEnc)))[1]? = some p) :
    rowProbability? model enc m rp = some p := by
  have hC : ¬anyFieldEmpty m rp := by
    unfold anyFieldEmpty
    push_neg
    refine ⟨?_, ?_, ?_, ?_, h5⟩
    · intro he; rw [he, replaceCommaDot_empty, parseFloat?_empty] at h1; exact absurd h1 (by simp)
    · intro he; rw [he, replaceCommaDot_empty, parseFloat?_empty] at h2; exact absurd h2 (by simp)
    · intro he; rw [he, replaceCommaDot_empty, parseFloat?_empty] at h3; exact absurd h3 (by simp)
    · intro he; rw [he, replaceCommaDot_empty, parseFloat?_empty] at h4; exact absurd h4 (by simp)
  unfold rowProbability?
  rw [if_neg hC, h1, Option.some_bind, h2, Option.some_bind, h3, Option.some_bind, h4,
    Option.some_bind, h6, Option.some_bind, h7]

/-! ### Claim theorems -/

/-- Claim C10: a read with no values at all yields the empty table; a read
with a header row but no data rows yields the one-row table
`[header ++ ['Probabilidade']]`, the new column name appended unconditionally,
even when the header already contains `'Probabilidade'` (duplicating it). -/
theorem c10_header_only (model : Model) (enc : Encoder) :
    process_sheet_data model enc [] = some [] ∧
    (∀ header : List String,
      process_sheet_data model enc [header] = some [header ++ ["Probabilidade"]]) ∧
    process_sheet_data model enc [["Probabilidade", "X"]] =
      some [["Probabilidade", "X", "Probabilidade"]] :=
  ⟨rfl, fun _ => rfl, rfl⟩

/-- Claim C5: the destination write range is
`'{sheet_name}!A1:{last column letter}{row count}'`, the column letter being
the bijective base-26 label of the column count (0 defaulting to `"A"`),
with `1 → A`, `26 → Z`, `27 → AA`, `52 → AZ`, `702 → ZZ`, and a 5-row by
7-column table giving `'Página1!A1:G5'`. -/
theorem c5_write_range :
    column_letter 0 = "A" ∧ column_letter 1 = "A" ∧ column_letter 26 = "Z" ∧
    column_letter 27 = "AA" ∧ column_letter 52 = "AZ" ∧ column_letter 702 = "ZZ" ∧
    (∀ t : List (List String), t ≠ [] →
      update_range_string t =
        sheet_name_from_range ++ "!A1:" ++ column_letter (t.headD []).length ++
          toString t.length) ∧
    update_range_string (List.replicate 5 (List.replicate 7 "x")) = "Página1!A1:G5" ∧
    sheet_name_from_range = "Página1" :=
  ⟨by decide, by decide, by decide, by decide, by decide, by decide,
   fun _ _ => rfl, by decide, by decide⟩

/-- Witness for C5 at a concrete one-row, one-column table. -/
theorem c5_write_range_witness :
    update_range_string [["a"]] =
      sheet_name_from_range ++ "!A1:" ++ column_letter ([["a"]].headD []).length ++
        toString [["a"]].length :=
  c5_write_range.2.2.2.2.2.2.1 [["a"]] (by decide)

/-- Claim C8: header resolution is deterministic (two runs on the same header
agree), and every resolved index is the first occurrence in the header of the
searched sheet-side column name. -/
theorem c8_header_resolution (header : List String) (m : List (String × Nat))
    (hres : resolveHeader header = some m) :
    (∀ m', resolveHeader header = some m' → m' = m) ∧
    (∀ f i, (f, i) ∈ m →
      header.get? i = some (sheet_col_name_to_find f) ∧
      ∀ j, j < i → header.get? j ≠ some (sheet_col_name_to_find f)) := by
  constructor
  · intro m' h
    rw [hres] at h
    exact (Option.some.inj h).symm
  · intro f i hm
    exact headerIndex_spec (sheet_col_name_to_find f) header i
      (resolveFields_mem header model_features_from_sheet m hres f i hm)

/-- Witness for C8 on the spec's end-to-end header: the resolved index of
`ValorQuitacao` points at the first `'Valor_Parcela'` cell. -/
theorem c8_header_resolution_witness :
    hdr1.get? 1 = some (sheet_col_name_to_find "ValorQuitacao") :=
  ((c8_header_resolution hdr1 m1 (by decide)).2 "ValorQuitacao" 1 (by decide)).1

/-- Counterexample to claim C6 as stated: on a header-only read whose header
lacks every expected column, `process_sheet_data` returns the augmented
header (not `None`) — the early header-only return runs before header
resolution — and the main flow then attempts the write. -/
theorem c6_counterexample :
    "ValorQuitacao" ∈ model_features_from_sheet ∧
    sheet_col_name_to_find "ValorQuitacao" = "Valor_Parcela" ∧
    ("Valor_Parcela" ∉ (["A", "B"] : List String)) ∧
    process_sheet_data model0 enc0 [["A", "B"]] = some [["A", "B", "Probabilidade"]] ∧
    main_writes model0 enc0 [["A", "B"]] = true := by
  decide

/-- Claim C6 as amended: when the read values hold a header and at least one
data row, a canonical field whose expected column name is absent from the
header (exact match) makes `process_sheet_data` return `none` and the main
flow attempt no write. -/
theorem c6_missing_column_fatal (model : Model) (enc : Encoder) (header row : List String)
    (rows : List (List String))
    (h : ∃ f ∈ model_features_from_sheet, sheet_col_name_to_find f ∉ header) :
    process_sheet_data model enc (header :: row :: rows) = none ∧
    main_writes model enc (header :: row :: rows) = false := by
  obtain ⟨f, hf, hmem⟩ := h
  have hres : resolveHeader header = none :=
    resolveFields_none header model_features_from_sheet
      ⟨f, hf, headerIndex_none_of_not_mem (sheet_col_name_to_find f) header hmem⟩
  constructor
  · simp [process_sheet_data, hres]
  · simp [main_writes, process_sheet_data, hres]

/-- Witness for the amended C6 at a concrete bad header with one data row. -/
theorem c6_missing_column_fatal_witness :
    process_sheet_data model0 enc0 (["A", "B"] :: ["x"] :: []) = none ∧
    main_writes model0 enc0 (["A", "B"] :: ["x"] :: []) = false :=
  c6_missing_column_fatal model0 enc0 ["A", "B"] ["x"] [] (by decide)

/-- Claim C1: once the header resolves, every data row of the batch appears
in the output at its own position, padded and extended with exactly one
probability cell, and each row-local failure mode — an empty essential cell
after stripping, a numeric-parse failure, an encoding failure, or the
catch-all exception case — only makes that row's probability string empty;
no row aborts the batch. -/
theorem c1_row_failures_do_not_abort (model : Model) (enc : Encoder)
    (header : List String) (rows : List (List String)) (m : List (String × Nat))
    (hres : resolveHeader header = some m) (hrows : rows ≠ []) :
    ∃ out, process_sheet_data model enc (header :: rows) = some out ∧
      out.length = rows.length + 1 ∧
      (∀ i, i < rows.length →
        out.get? (i + 1) = some (padRow header.length (rows.getD i []) ++
          [transformRow model enc m (padRow header.length (rows.getD i []))])) ∧
      (∀ rp, rowProbability? model enc m rp = none → transformRow model enc m rp = "") ∧
      (∀ rp, (∃ f ∈ model_features_from_sheet, fieldValue m rp f = "") →
        rowProbability? model enc m rp = none) ∧
      (∀ rp, (∃ f ∈ numeric_field_names,
          parseFloat? (replaceCommaDot (fieldValue m rp f)) = none) →
        rowProbability? model enc m rp = none) ∧
      (∀ rp, encTransform enc (fieldValue m rp "UF") = none →
        rowProbability? model enc m rp = none) := by
  cases rows with
  | nil => exact absurd rfl hrows
  | cons r rs =>
    refine ⟨(if "Probabilidade" ∈ header then header else header ++ ["Probabilidade"]) ::
      (r :: rs).map (fun row =>
        padRow header.length row ++ [transformRow model enc m (padRow header.length row)]),
      ?_, ?_, ?_, ?_, ?_, ?_, ?_⟩
    · simp [process_sheet_data, hres]
    · simp
    · intro i hi
      rw [List.get?_cons_succ]
      exact get?_map_of_lt _ [] (r :: rs) i hi
    · exact fun rp h => transformRow_eq_empty model enc m rp h
    · rintro rp ⟨f, hf, he⟩
      exact rowProbability?_eq_none_of_empty model enc m rp (anyFieldEmpty_of_mem m rp f hf he)
    · rintro rp ⟨f, hf, hp⟩
      exact rowProbability?_eq_none_of_parse_fail model enc m rp f hf hp
    · exact fun rp he => rowProbability?_eq_none_of_enc_fail model enc m rp he

/-- Witness for C1: on the end-to-end header, a row whose required value cell
is empty still yields a probability string, namely the empty one. -/
theorem c1_row_failures_do_not_abort_witness :
    transformRow model0 enc0 m1 ["João", "", "10", "3", "2", "CE"] = "" := by
  obtain ⟨out, h1, h2, h3, h4, h5, h6, h7⟩ :=
    c1_row_failures_do_not_abort model0 enc0 hdr1 [row1] m1 (by decide) (by decide)
  exact h4 _ (h5 ["João", "", "10", "3", "2", "CE"] ⟨"ValorQuitacao", by decide, by decide⟩)

/-- Counterexample to claim C3 as stated: when the read header already holds
`'Probabilidade'` in a non-final position and a data row is longer than the
header, the output header is not the read header with `'Probabilidade'`
appended, the output data row has two more cells than the read header, and
the output header does not end in `'Probabilidade'`. -/
theorem c3_counterexample :
    process_sheet_data model0 enc0 [hdrP, rowP] = some [hdrP, rowP ++ ["0,5000"]] ∧
    hdrP ≠ hdrP ++ ["Probabilidade"] ∧
    (rowP ++ ["0,5000"]).length ≠ hdrP.length + 1 ∧
    hdrP.getLast? ≠ some "Probabilidade" := by
  decide

/-- Claim C3 as amended: the output table is the read header with
`'Probabilidade'` appended when not already present (kept unchanged
otherwise), followed by each original row padded and extended with its
probability string; each output data row has exactly one more cell than the
longer of its original row and the read header, and the output header ends in
`'Probabilidade'` whenever that name was not already in the read header. -/
theorem c3_augmented_table (model : Model) (enc : Encoder) (header row : List String)
    (rows : List (List String)) (m : List (String × Nat))
    (hres : resolveHeader header = some m) :
    process_sheet_data model enc (header :: row :: rows) =
      some ((if "Probabilidade" ∈ header then header else header ++ ["Probabilidade"]) ::
        (row :: rows).map (fun r =>
          padRow header.length r ++ [transformRow model enc m (padRow header.length r)])) ∧
    (∀ r : List String,
      (padRow header.length r ++ [transformRow model enc m (padRow header.length r)]).length =
        max r.length header.length + 1) ∧
    ("Probabilidade" ∉ header →
      ((if "Probabilidade" ∈ header then header else header ++ ["Probabilidade"]).getLast?) =
        some "Probabilidade") := by
  refine ⟨by simp [process_sheet_data, hres], ?_, ?_⟩
  · intro r
    simp [padRow_length]
  · intro h
    rw [if_neg h]
    exact List.getLast?_concat header

/-- Witness for the amended C3 on the spec's end-to-end input. -/
theorem c3_augmented_table_witness :
    process_sheet_data model0 enc0 (hdr1 :: row1 :: []) =
      some ((if "Probabilidade" ∈ hdr1 then hdr1 else hdr1 ++ ["Probabilidade"]) ::
        [row1].map (fun r =>
          padRow hdr1.length r ++ [transformRow model0 enc0 m1 (padRow hdr1.length r)])) :=
  (c3_augmented_table model0 enc0 hdr1 row1 [] m1 (by decide)).1

/-- Claim C4: for a well-formed row — all five essential cells nonempty, all
four numeric cells parseable, region code encodable, and the model exposing a
second class column — the probability string is the positive-class
probability (index 1 of `predict_proba`'s output) formatted with four
fractional digits and a comma separator; `0.8231` formats as `"0,8231"`. -/
theorem c4_probability_format (model : Model) (enc : Encoder) (m : List (String × Nat))
    (rp : List String) (v1 v2 v3 v4 : DecNum) (ufEnc : List DecNum) (p : DecNum)
    (h1 : parseFloat? (replaceCommaDot (fieldValue m rp "ValorQuitacao")) = some v1)
    (h2 : parseFloat? (replaceCommaDot (fieldValue m rp "Atraso")) = some v2)
    (h3 : parseFloat? (replaceCommaDot (fieldValue m rp "Quant_Pagamentos_Via_Boleto")) = some v3)
    (h4 : parseFloat? (replaceCommaDot (fieldValue m rp "Quant_Ocorrencia")) = some v4)
    (h5 : fieldValue m rp "UF" ≠ "")
    (h6 : encTransform enc (fieldValue m rp "UF") = some ufEnc)
    (h7 : (model.predictProba (model.feature_names_in.map
        (featureValue enc v1 v2 v3 v4 ufEnc)))[1]? = some p) :
    transformRow model enc m rp = formatComma4 p ∧
    formatComma4 ⟨8231, 4⟩ = "0,8231" ∧
    DecNum.toRat ⟨8231, 4⟩ = (0.8231 : ℚ) := by
  refine ⟨?_, by decide, by norm_num [DecNum.toRat]⟩
  unfold transformRow
  rw [rowProbability?_eq_some model enc m rp v1 v2 v3 v4 ufEnc p h1 h2 h3 h4 h5 h6 h7]

/-- Witness for C4 on the spec's end-to-end row under the concrete model and
encoder. -/
theorem c4_probability_format_witness :
    transformRow model0 enc0 m1 row1 = formatComma4 ⟨5, 1⟩ :=
  (c4_probability_format model0 enc0 m1 row1 ⟨15050, 2⟩ ⟨10, 0⟩ ⟨3, 0⟩ ⟨2, 0⟩
    [⟨1, 0⟩, ⟨0, 0⟩] ⟨5, 1⟩ (by decide) (by decide) (by decide) (by decide) (by decide)
    (by decide) (by decide)).1

/-- Claim C7: each numeric cell is parsed after replacing the comma decimal
separator with a period — `"150,50"` parses to the exact value 150.5 — and a
parse failure on any of the four numeric fields makes the row's probability
string empty. -/
theorem c7_numeric_parse :
    parseFloat? (replaceCommaDot "150,50") = some ⟨15050, 2⟩ ∧
    DecNum.toRat ⟨15050, 2⟩ = (150.5 : ℚ) ∧
    (∀ (model : Model) (enc : Encoder) (m : List (String × Nat)) (rp : List String),
      (∃ f ∈ numeric_field_names, parseFloat? (replaceCommaDot (fieldValue m rp f)) = none) →
      transformRow model enc m rp = "") := by
  refine ⟨by decide, by norm_num [DecNum.toRat], ?_⟩
  rintro model enc m rp ⟨f, hf, hp⟩
  exact transformRow_eq_empty model enc m rp
    (rowProbability?_eq_none_of_parse_fail model enc m rp f hf hp)

/-- Witness for C7: a non-numeric value cell yields the empty probability. -/
theorem c7_numeric_parse_witness :
    transformRow model0 enc0 m1 ["João", "abc", "10", "3", "2", "CE"] = "" :=
  c7_numeric_parse.2.2 model0 enc0 m1 ["João", "abc", "10", "3", "2", "CE"]
    ⟨"ValorQuitacao", by decide, by decide⟩

/-- Claim C2: under the encoder fitted on `["AL","CE","SP"]` with a dropped
first baseline, region code `"CE"` encodes to indicators `[1, 0]` over the
model features `UF_CE`, `UF_SP`, the baseline `"AL"` encodes to `[0, 0]`; a
`UF_`-prefixed model feature whose suffix is not in the post-drop category
list contributes 0, and a feature name matching neither a numeric field nor
the `UF_` prefix contributes 0, in both cases without failing the row. -/
theorem c2_one_hot_drop_first :
    encTransform enc0 "CE" = some [⟨1, 0⟩, ⟨0, 0⟩] ∧
    (∀ v1 v2 v3 v4 : DecNum,
      [featureValue enc0 v1 v2 v3 v4 [⟨1, 0⟩, ⟨0, 0⟩] "UF_CE",
       featureValue enc0 v1 v2 v3 v4 [⟨1, 0⟩, ⟨0, 0⟩] "UF_SP"] = [⟨1, 0⟩, ⟨0, 0⟩]) ∧
    [(⟨1, 0⟩ : DecNum), ⟨0, 0⟩].map DecNum.toRat = [1, 0] ∧
    encTransform enc0 "AL" = some [⟨0, 0⟩, ⟨0, 0⟩] ∧
    (∀ v1 v2 v3 v4 : DecNum,
      [featureValue enc0 v1 v2 v3 v4 [⟨0, 0⟩, ⟨0, 0⟩] "UF_CE",
       featureValue enc0 v1 v2 v3 v4 [⟨0, 0⟩, ⟨0, 0⟩] "UF_SP"] = [⟨0, 0⟩, ⟨0, 0⟩]) ∧
    (∀ (v1 v2 v3 v4 : DecNum) (ufEnc : List DecNum) (fname : String),
      startsWithUF fname = true →
      headerIndex (dropUFTag fname) (enc0.categories.drop 1) = none →
      featureValue enc0 v1 v2 v3 v4 ufEnc fname = ⟨0, 0⟩) ∧
    (∀ (v1 v2 v3 v4 : DecNum) (ufEnc : List DecNum) (fname : String),
      fname ∉ numeric_field_names → startsWithUF fname = false →
      featureValue enc0 v1 v2 v3 v4 ufEnc fname = ⟨0, 0⟩) := by
  refine ⟨by decide, fun v1 v2 v3 v4 => rfl, by norm_num [DecNum.toRat], by decide,
    fun v1 v2 v3 v4 => rfl, ?_, ?_⟩
  · intro v1 v2 v3 v4 ufEnc fname hUF hidx
    have n1 : ¬fname = "ValorQuitacao" := by rintro rfl; exact absurd hUF (by decide)
    have n2 : ¬fname = "Atraso" := by rintro rfl; exact absurd hUF (by decide)
    have n3 : ¬fname = "Quant_Pagamentos_Via_Boleto" := by
      rintro rfl; exact absurd hUF (by decide)
    have n4 : ¬fname = "Quant_Ocorrencia" := by rintro rfl; exact absurd hUF (by decide)
    unfold featureValue
    rw [if_neg n1, if_neg n2, if_neg n3, if_neg n4, if_pos hUF,
      if_pos (show enc0.dropFirst = true ∧ 0 < enc0.categories.length by decide), hidx]
  · intro v1 v2 v3 v4 ufEnc fname hn hUF
    simp only [numeric_field_names, List.mem_cons, not_or] at hn
    obtain ⟨n1, n2, n3, n4, -⟩ := hn
    unfold featureValue
    rw [if_neg n1, if_neg n2, if_neg n3, if_neg n4, if_neg (by simp [hUF])]

/-- Witness for C2: the model feature `UF_AL` names the dropped baseline, so
it is absent from the post-drop category list and contributes 0. -/
theorem c2_one_hot_drop_first_witness :
    featureValue enc0 ⟨1, 0⟩ ⟨2, 0⟩ ⟨3, 0⟩ ⟨4, 0⟩ [⟨1, 0⟩, ⟨0, 0⟩] "UF_AL" = ⟨0, 0⟩ :=
  c2_one_hot_drop_first.2.2.2.2.2.1 ⟨1, 0⟩ ⟨2, 0⟩ ⟨3, 0⟩ ⟨4, 0⟩ [⟨1, 0⟩, ⟨0, 0⟩] "UF_AL"
    (by decide) (by decide)

/-- Counterexample to claim C9 as stated: the single-empty-row table `[[]]`
is nonempty with a first row of fewer than 5 cells and is not the
`'Probabilidade'` exception, yet the guard raises `IndexError` on the
`updated_data[0][-1]` access instead of returning. -/
theorem c9_counterexample :
    update_sheet_guard [[]] = WriteDecision.indexError ∧
    WriteDecision.indexError ≠ WriteDecision.refuse ∧
    (([[]] : List (List String)) = [] ∨ (([[]] : List (List String)).headD []).length < 5) ∧
    ¬(([[]] : List (List String)).length = 1 ∧
      1 < (([[]] : List (List String)).headD []).length ∧
      (([[]] : List (List String)).headD []).getLast? = some "Probabilidade") := by
  decide

/-- Claim C9 as amended: the guard refuses to write whenever the table is
empty or its first row has fewer than `len(COLUMN_MAPPING) + 2 = 5` cells,
except that a one-row table with more than one cell ending in
`'Probabilidade'` is written and that the single input `[[]]` raises
`IndexError` (still without writing); in particular a table of two or more
rows whose first row has at most 4 cells is never written. -/
theorem c9_write_guard (t : List (List String)) :
    COLUMN_MAPPING.length + 2 = 5 ∧
    ((t = [] ∨ (t.headD []).length < 5) →
      ¬(t.length = 1 ∧ 1 < (t.headD []).length ∧
        (t.headD []).getLast? = some "Probabilidade") →
      update_sheet_guard t ≠ WriteDecision.write ∧
      (t ≠ [[]] → update_sheet_guard t = WriteDecision.refuse) ∧
      (t = [[]] → update_sheet_guard t = WriteDecision.indexError)) ∧
    ((t.length = 1 ∧ 1 < (t.headD []).length ∧
        (t.headD []).getLast? = some "Probabilidade") →
      update_sheet_guard t = WriteDecision.write) ∧
    (2 ≤ t.length → (t.headD []).length ≤ 4 → update_sheet_guard t = WriteDecision.refuse) := by
  have h5 : COLUMN_MAPPING.length + 2 = 5 := by decide
  refine ⟨h5, ?_, ?_, ?_⟩
  · intro hsmall hexc
    cases t with
    | nil =>
      exact ⟨by decide, fun _ => rfl, fun h => absurd h (by decide)⟩
    | cons first rest =>
      have hlen : first.length < 5 := by
        rcases hsmall with h | h
        · exact absurd h (by simp)
        · simpa using h
      cases rest with
      | nil =>
        cases first with
        | nil => exact ⟨by decide, fun h => absurd rfl h, fun _ => rfl⟩
        | cons c cs =>
          cases hL : (c :: cs).getLast? with
          | none => exact absurd hL (by simp)
          | some a =>
            have hcond : ¬(a = "Probabilidade" ∧ 1 < (c :: cs).length) := by
              rintro ⟨rfl, hgt⟩
              exact hexc ⟨rfl, by simpa using hgt, by simpa using hL⟩
            have hg : update_sheet_guard [c :: cs] = WriteDecision.refuse := by
              simp only [update_sheet_guard]
              rw [if_pos (by simp only [h5]; exact hlen), hL]
              exact if_neg hcond
            exact ⟨by rw [hg]; decide, fun _ => hg, fun h => by simp at h⟩
      | cons r rs =>
        have hg : update_sheet_guard (first :: r :: rs) = WriteDecision.refuse := by
          simp only [update_sheet_guard]
          rw [if_pos (by simp only [h5]; exact hlen)]
        exact ⟨by rw [hg]; decide, fun _ => hg, fun h => by simp at h⟩
  · rintro ⟨hlen1, hgt, hlast⟩
    cases t with
    | nil => simp at hlen1
    | cons first rest =>
      have hrest : rest = [] := by
        have : rest.length = 0 := by simpa using hlen1
        exact List.length_eq_zero.mp this
      subst hrest
      simp only [List.headD_cons] at hgt hlast
      by_cases hlt : first.length < COLUMN_MAPPING.length + 2
      · simp only [update_sheet_guard]
        rw [if_pos hlt, hlast]
        exact if_pos ⟨rfl, hgt⟩
      · simp only [update_sheet_guard]
        rw [if_neg hlt]
  · intro h2 h4
    cases t with
    | nil => exact absurd h2 (by simp)
    | cons first rest =>
      cases rest with
      | nil => exact absurd h2 (by simp)
      | cons r rs =>
        have h4' : first.length ≤ 4 := by simpa using h4
        have hlt : first.length < COLUMN_MAPPING.length + 2 := by
          simp only [h5]
          omega
        simp only [update_sheet_guard]
        rw [if_pos hlt]

/-- Witness for the amended C9: a two-row table with one-cell rows is
refused. -/
theorem c9_write_guard_witness :
    update_sheet_guard [["a"], ["b"]] = WriteDecision.refuse :=
  ((c9_write_guard [["a"], ["b"]]).2.1 (Or.inr (by decide)) (by decide)).2.1 (by decide)
